import Mathlib

/-!
Shallow embedding of `src/read/dwarf.rs` (the gimli DWARF resolution layer):
the `Dwarf` section aggregate, its attribute resolvers, and the `DwarfUnit`
bootstrap. Machine integers are modelled as `Nat`; the external section
decoders (string tables, address table, offset tables, list-entry decoding,
abbreviation parsing, the entries cursor and the line-number-program
constructor) are modelled from the specification, since only `dwarf.rs` is in
the sources.
-/

namespace Gimli

/-- A byte string: each element is one byte value. -/
abbrev Bytes := List Nat

/-- Error kinds of the resolution layer (`read::Error` variants used here,
plus coarse stand-ins for the external decoders' failure modes). -/
inductive Error where
  | MissingUnitDie
  | ExpectedStringAttributeValue
  | OutOfBounds
  | MalformedEntry
  | MalformedAbbrev
  | LineProgramError
  deriving DecidableEq, Repr

/-- Alias for `read::Result<T>`. -/
abbrev Result (α : Type) := Except Error α

/-- Decidable equality of results, so concrete witnesses can be checked by
evaluation. -/
instance {ε α : Type} [DecidableEq ε] [DecidableEq α] :
    DecidableEq (Except ε α) := fun x y =>
  match x, y with
  | .error e, .error f =>
    decidable_of_iff (e = f)
      ⟨fun h => by rw [h], fun h => by injection h⟩
  | .ok a, .ok b =>
    decidable_of_iff (a = b)
      ⟨fun h => by rw [h], fun h => by injection h⟩
  | .error _, .ok _ => .isFalse (fun h => Except.noConfusion h)
  | .ok _, .error _ => .isFalse (fun h => Except.noConfusion h)

/-- The DWARF offset format (32-bit or 64-bit), determining the byte width of
section offsets. -/
inductive Format where
  | Dwarf32
  | Dwarf64
  deriving DecidableEq, Repr

/-- Byte width of an offset in the given format. -/
def Format.wordSize : Format → Nat
  | .Dwarf32 => 4
  | .Dwarf64 => 8

/-- Encoding parameters of a unit: offset format, DWARF version, address
size, as exposed by `UnitHeader::encoding`. -/
structure Encoding where
  format : Format
  version : Nat
  address_size : Nat
  deriving DecidableEq, Repr

/-- Modelled from the spec: "read N bytes at absolute offset", failing when
the range exceeds the backing section. -/
def readBytes (data : Bytes) (pos len : Nat) : Result Bytes :=
  if pos + len ≤ data.length then .ok ((data.drop pos).take len)
  else .error .OutOfBounds

/-- Value of a little-endian byte run. -/
def leValue (bs : Bytes) : Nat := bs.foldr (fun b acc => b + 256 * acc) 0

/-- Modelled from the spec: "decode one primitive (address-size integer,
offset-size integer) at a cursor position" — a fixed-width little-endian read. -/
def readUint (data : Bytes) (pos len : Nat) : Result Nat :=
  (readBytes data pos len).map leValue

/-- Embedding of `read::AttributeValue`: the closed tagged union of decoded attribute
encodings, restricted to the variants `dwarf.rs` dispatches on plus
representative "other" kinds. -/
inductive AttributeValue where
  | String (s : Bytes)
  | DebugStrRef (offset : Nat)
  | DebugStrRefSup (offset : Nat)
  | DebugLineStrRef (offset : Nat)
  | DebugStrOffsetsIndex (index : Nat)
  | DebugStrOffsetsBase (base : Nat)
  | Addr (address : Nat)
  | DebugAddrBase (base : Nat)
  | DebugLineRef (offset : Nat)
  | DebugLocListsBase (base : Nat)
  | DebugLocListsIndex (index : Nat)
  | DebugRngListsBase (base : Nat)
  | DebugRngListsIndex (index : Nat)
  | RangeListsRef (offset : Nat)
  | LocationListsRef (offset : Nat)
  | Udata (value : Nat)
  | Flag (b : Bool)
  deriving DecidableEq, Repr

/-- The `.debug_str` section (also used for the supplementary string table). -/
structure DebugStr where
  data : Bytes
  deriving DecidableEq, Repr

/-- Modelled from the spec: read the run of bytes up to the first NUL; error
when the section ends before a terminator is found. -/
def takeNullTerminated : Bytes → Result Bytes
  | [] => .error .OutOfBounds
  | b :: rest =>
    if b = 0 then .ok []
    else (takeNullTerminated rest).map (fun s => b :: s)

/-- Modelled from the spec: "read a null-terminated byte run at that offset in
the designated table; error if offset exceeds table bounds or no terminator is
found before section end" (`DebugStr::get_str`). -/
def DebugStr.get_str (s : DebugStr) (offset : Nat) : Result Bytes :=
  takeNullTerminated (s.data.drop offset)

/-- The `.debug_line_str` section. -/
structure DebugLineStr where
  data : Bytes
  deriving DecidableEq, Repr

/-- Modelled from the spec: same null-terminated lookup, in the line-only
string table. -/
def DebugLineStr.get_str (s : DebugLineStr) (offset : Nat) : Result Bytes :=
  takeNullTerminated (s.data.drop offset)

/-- The `.debug_str_offsets` section. -/
structure DebugStrOffsets where
  data : Bytes
  deriving DecidableEq, Repr

/-- Modelled from the spec: "compute the table-entry position from the unit's
string-offsets-table base plus index times the offset-format width; read the
stored offset there" (`DebugStrOffsets::get_str_offset`). -/
def DebugStrOffsets.get_str_offset (s : DebugStrOffsets) (format : Format)
    (base index : Nat) : Result Nat :=
  readUint s.data (base + index * format.wordSize) format.wordSize

/-- The `.debug_addr` section. -/
structure DebugAddr where
  data : Bytes
  deriving DecidableEq, Repr

/-- Modelled from the spec: "compute table position as address-table base plus
index times the unit's address size; read an address-size-sized value; error
on out-of-bounds" (`DebugAddr::get_address`). -/
def DebugAddr.get_address (s : DebugAddr) (address_size base index : Nat) :
    Result Nat :=
  readUint s.data (base + index * address_size) address_size

/-- Modelled from the spec: the raw (already byte-decoded, not yet
address-normalized) entry kinds of a range or location list: absolute pair,
pair relative to the active base, pairs of address-table indices, the two
base-setting entry kinds, and the list terminator. -/
inductive RawListEntry where
  | OffsetPair (lo hi : Nat)
  | StartEnd (lo hi : Nat)
  | BaseAddress (addr : Nat)
  | BaseAddressx (index : Nat)
  | StartxEndx (loIndex hiIndex : Nat)
  | EndOfList
  deriving DecidableEq, Repr

/-- Modelled from the spec: the range-list iterator's normalization loop. It
tracks the active base (initialized by the caller to the unit's `low_pc`),
resolves index-form sub-fields through the given address table at the given
base, rebases offset pairs, stops at the terminator, and treats a list that
runs out without a terminator as truncated. -/
def decodeRngEntries (debug_addr : DebugAddr) (address_size addr_base : Nat) :
    List RawListEntry → Nat → Result (List (Nat × Nat))
  | [], _ => .error .MalformedEntry
  | .EndOfList :: _, _ => .ok []
  | .BaseAddress addr :: rest, _ =>
    decodeRngEntries debug_addr address_size addr_base rest addr
  | .BaseAddressx index :: rest, _ =>
    match debug_addr.get_address address_size addr_base index with
    | .error e => .error e
    | .ok addr => decodeRngEntries debug_addr address_size addr_base rest addr
  | .OffsetPair lo hi :: rest, base =>
    match decodeRngEntries debug_addr address_size addr_base rest base with
    | .error e => .error e
    | .ok tail => .ok ((base + lo, base + hi) :: tail)
  | .StartEnd lo hi :: rest, base =>
    match decodeRngEntries debug_addr address_size addr_base rest base with
    | .error e => .error e
    | .ok tail => .ok ((lo, hi) :: tail)
  | .StartxEndx loIndex hiIndex :: rest, base =>
    match debug_addr.get_address address_size addr_base loIndex,
          debug_addr.get_address address_size addr_base hiIndex with
    | .error e, _ => .error e
    | .ok _, .error e => .error e
    | .ok lo, .ok hi =>
      match decodeRngEntries debug_addr address_size addr_base rest base with
      | .error e => .error e
      | .ok tail => .ok ((lo, hi) :: tail)

/-- Modelled from the spec: the location-list iterator's normalization loop;
identical to `decodeRngEntries` except that each yielded pair additionally
carries the entry's opaque location-expression payload. -/
def decodeLocEntries (debug_addr : DebugAddr) (address_size addr_base : Nat) :
    List (RawListEntry × Bytes) → Nat → Result (List ((Nat × Nat) × Bytes))
  | [], _ => .error .MalformedEntry
  | (.EndOfList, _) :: _, _ => .ok []
  | (.BaseAddress addr, _) :: rest, _ =>
    decodeLocEntries debug_addr address_size addr_base rest addr
  | (.BaseAddressx index, _) :: rest, _ =>
    match debug_addr.get_address address_size addr_base index with
    | .error e => .error e
    | .ok addr => decodeLocEntries debug_addr address_size addr_base rest addr
  | (.OffsetPair lo hi, d) :: rest, base =>
    match decodeLocEntries debug_addr address_size addr_base rest base with
    | .error e => .error e
    | .ok tail => .ok (((base + lo, base + hi), d) :: tail)
  | (.StartEnd lo hi, d) :: rest, base =>
    match decodeLocEntries debug_addr address_size addr_base rest base with
    | .error e => .error e
    | .ok tail => .ok (((lo, hi), d) :: tail)
  | (.StartxEndx loIndex hiIndex, d) :: rest, base =>
    match debug_addr.get_address address_size addr_base loIndex,
          debug_addr.get_address address_size addr_base hiIndex with
    | .error e, _ => .error e
    | .ok _, .error e => .error e
    | .ok lo, .ok hi =>
      match decodeLocEntries debug_addr address_size addr_base rest base with
      | .error e => .error e
      | .ok tail => .ok (((lo, hi), d) :: tail)

/-- The range lists of `.debug_ranges`/`.debug_rnglists`: an offset table (for
index-form lookups) and, modelled from the spec, the raw entry stream decoded
at each section offset (`none` when no list starts there). -/
structure RangeLists where
  table : Bytes
  lists : Nat → Option (List RawListEntry)

/-- Modelled from the spec: "Resolve range-list table offset … computed
analogously to the string-offsets lookup but against the range-lists-table
base" (`RangeLists::get_offset`). -/
def RangeLists.get_offset (r : RangeLists) (encoding : Encoding)
    (base index : Nat) : Result Nat :=
  readUint r.table (base + index * encoding.format.wordSize)
    encoding.format.wordSize

/-- Modelled from the spec: "Open range-list iterator" — decode the list at
the given section offset, normalizing against the given base address and
resolving address indices through `debug_addr` at `addr_base`
(`RangeLists::ranges`). -/
def RangeLists.ranges (r : RangeLists) (offset : Nat) (encoding : Encoding)
    (base_address : Nat) (debug_addr : DebugAddr) (addr_base : Nat) :
    Result (List (Nat × Nat)) :=
  match r.lists offset with
  | none => .error .OutOfBounds
  | some entries =>
    decodeRngEntries debug_addr encoding.address_size addr_base entries
      base_address

/-- The location lists of `.debug_loc`/`.debug_loclists`, analogous to
`RangeLists` but with a location-expression payload on each raw entry. -/
structure LocationLists where
  table : Bytes
  lists : Nat → Option (List (RawListEntry × Bytes))

/-- Modelled from the spec: the location-list analogue of
`RangeLists.get_offset` (`LocationLists::get_offset`). -/
def LocationLists.get_offset (l : LocationLists) (encoding : Encoding)
    (base index : Nat) : Result Nat :=
  readUint l.table (base + index * encoding.format.wordSize)
    encoding.format.wordSize

/-- Modelled from the spec: "Open location-list iterator" — same contract as
`RangeLists.ranges`, with the location-expression payload carried through
(`LocationLists::locations`). -/
def LocationLists.locations (l : LocationLists) (offset : Nat)
    (encoding : Encoding) (base_address : Nat) (debug_addr : DebugAddr)
    (addr_base : Nat) : Result (List ((Nat × Nat) × Bytes)) :=
  match l.lists offset with
  | none => .error .OutOfBounds
  | some entries =>
    decodeLocEntries debug_addr encoding.address_size addr_base entries
      base_address

/-- Modelled from the spec: the decoded abbreviation table; its contents are
consumed only by the external entries cursor, so it is opaque here. -/
structure Abbreviations where
  id : Nat
  deriving DecidableEq, Repr

/-- The `.debug_abbrev` section, modelled from the spec as the outcome of
"decode abbreviation table at offset" for each declared offset. -/
structure DebugAbbrev where
  tables : Nat → Result Abbreviations

/-- DWARF attribute names dispatched on by the unit bootstrap
(`constants::DW_AT_*`); every other name is `other`. -/
inductive AttrName where
  | DW_AT_name
  | DW_AT_comp_dir
  | DW_AT_low_pc
  | DW_AT_stmt_list
  | DW_AT_str_offsets_base
  | DW_AT_addr_base
  | DW_AT_loclists_base
  | DW_AT_rnglists_base
  | other (n : Nat)
  deriving DecidableEq, Repr

/-- One decoded attribute of an entry: its name and value
(`read::Attribute`). -/
structure Attribute where
  name : AttrName
  value : AttributeValue
  deriving DecidableEq, Repr

/-- Modelled from the spec: the root (first depth-first) entry of a unit,
reduced to its attribute list, which the bootstrap iterates exactly once. -/
structure RootEntry where
  attrs : List Attribute
  deriving DecidableEq, Repr

/-- Embedding of `read::UnitHeader`: the unit's decoded envelope, together with (modelled
from the spec) the result of advancing an entries cursor to the first
depth-first entry — `none` when the unit's entry tree is empty. -/
structure UnitHeader where
  encoding : Encoding
  debug_abbrev_offset : Nat
  root : Option RootEntry
  deriving DecidableEq, Repr

/-- Embedding of `UnitHeader::abbreviations`: decode the abbreviation table at this
header's declared abbreviation offset. -/
def UnitHeader.abbreviations (h : UnitHeader) (debug_abbrev : DebugAbbrev) :
    Result Abbreviations :=
  debug_abbrev.tables h.debug_abbrev_offset

/-- Modelled from the spec: the line-number-program skeleton, recording the
seed data the constructor receives (offset, address size, working directory,
primary file name). -/
structure IncompleteLineProgram where
  offset : Nat
  address_size : Nat
  comp_dir : Option AttributeValue
  name : Option AttributeValue
  deriving DecidableEq, Repr

/-- The `.debug_line` section, modelled from the spec as the external
"decode line-number-program header given offset, address size, working
directory, primary file name" constructor, which may fail. -/
structure DebugLine where
  program : Nat → Nat → Option AttributeValue → Option AttributeValue →
    Result IncompleteLineProgram

/-- Embedding of `read::Dwarf`: the section aggregate. The `LocationLists`/`RangeLists`
fields are named `location_lists`/`range_lists` so the resolver operations can
keep their source names `locations`/`ranges`. -/
structure Dwarf where
  debug_abbrev : DebugAbbrev
  debug_addr : DebugAddr
  debug_line : DebugLine
  debug_line_str : DebugLineStr
  debug_str : DebugStr
  debug_str_offsets : DebugStrOffsets
  debug_str_sup : DebugStr
  location_lists : LocationLists
  range_lists : RangeLists

/-- Embedding of `read::DwarfUnit`: the per-unit bootstrap state. -/
structure DwarfUnit where
  header : UnitHeader
  abbreviations : Abbreviations
  name : Option AttributeValue
  comp_dir : Option AttributeValue
  low_pc : Nat
  str_offsets_base : Nat
  addr_base : Nat
  loclists_base : Nat
  rnglists_base : Nat
  line_program : Option IncompleteLineProgram
  deriving DecidableEq, Repr

/-- Embedding of `DwarfUnit::encoding`. -/
def DwarfUnit.encoding (u : DwarfUnit) : Encoding := u.header.encoding

/-- Embedding of `Dwarf::attr_string`. -/
def Dwarf.attr_string (dwarf : Dwarf) (unit : DwarfUnit)
    (attr : AttributeValue) : Result Bytes :=
  match attr with
  | .String string => .ok string
  | .DebugStrRef offset => dwarf.debug_str.get_str offset
  | .DebugStrRefSup offset => dwarf.debug_str_sup.get_str offset
  | .DebugLineStrRef offset => dwarf.debug_line_str.get_str offset
  | .DebugStrOffsetsIndex index =>
    match dwarf.debug_str_offsets.get_str_offset unit.header.encoding.format
        unit.str_offsets_base index with
    | .error e => .error e
    | .ok offset => dwarf.debug_str.get_str offset
  | _ => .error .ExpectedStringAttributeValue

/-- Embedding of `Dwarf::address`. -/
def Dwarf.address (dwarf : Dwarf) (unit : DwarfUnit) (index : Nat) :
    Result Nat :=
  dwarf.debug_addr.get_address unit.encoding.address_size unit.addr_base index

/-- Embedding of `Dwarf::ranges_offset`. -/
def Dwarf.ranges_offset (dwarf : Dwarf) (unit : DwarfUnit) (index : Nat) :
    Result Nat :=
  dwarf.range_lists.get_offset unit.encoding unit.rnglists_base index

/-- Embedding of `Dwarf::ranges`. -/
def Dwarf.ranges (dwarf : Dwarf) (unit : DwarfUnit) (offset : Nat) :
    Result (List (Nat × Nat)) :=
  dwarf.range_lists.ranges offset unit.encoding unit.low_pc dwarf.debug_addr
    unit.addr_base

/-- Embedding of `Dwarf::attr_ranges_offset`. -/
def Dwarf.attr_ranges_offset (dwarf : Dwarf) (unit : DwarfUnit)
    (attr : AttributeValue) : Result (Option Nat) :=
  match attr with
  | .RangeListsRef offset => .ok (some offset)
  | .DebugRngListsIndex index => (dwarf.ranges_offset unit index).map some
  | _ => .ok none

/-- Embedding of `Dwarf::attr_ranges`. -/
def Dwarf.attr_ranges (dwarf : Dwarf) (unit : DwarfUnit)
    (attr : AttributeValue) : Result (Option (List (Nat × Nat))) :=
  match dwarf.attr_ranges_offset unit attr with
  | .error e => .error e
  | .ok (some offset) =>
    match dwarf.ranges unit offset with
    | .error e => .error e
    | .ok it => .ok (some it)
  | .ok none => .ok none

/-- Embedding of `Dwarf::locations_offset`. -/
def Dwarf.locations_offset (dwarf : Dwarf) (unit : DwarfUnit) (index : Nat) :
    Result Nat :=
  dwarf.location_lists.get_offset unit.encoding unit.loclists_base index

/-- Embedding of `Dwarf::locations`. -/
def Dwarf.locations (dwarf : Dwarf) (unit : DwarfUnit) (offset : Nat) :
    Result (List ((Nat × Nat) × Bytes)) :=
  dwarf.location_lists.locations offset unit.encoding unit.low_pc
    dwarf.debug_addr unit.addr_base

/-- Embedding of `Dwarf::attr_locations_offset`. -/
def Dwarf.attr_locations_offset (dwarf : Dwarf) (unit : DwarfUnit)
    (attr : AttributeValue) : Result (Option Nat) :=
  match attr with
  | .LocationListsRef offset => .ok (some offset)
  | .DebugLocListsIndex index => (dwarf.locations_offset unit index).map some
  | _ => .ok none

/-- Embedding of `Dwarf::attr_locations`. -/
def Dwarf.attr_locations (dwarf : Dwarf) (unit : DwarfUnit)
    (attr : AttributeValue) : Result (Option (List ((Nat × Nat) × Bytes))) :=
  match dwarf.attr_locations_offset unit attr with
  | .error e => .error e
  | .ok (some offset) =>
    match dwarf.locations unit offset with
    | .error e => .error e
    | .ok it => .ok (some it)
  | .ok none => .ok none

/-- The mutable locals of `DwarfUnit::new`'s root-entry scan, with their
initial defaults. -/
structure ScanState where
  name : Option AttributeValue
  comp_dir : Option AttributeValue
  low_pc : Nat
  str_offsets_base : Nat
  addr_base : Nat
  loclists_base : Nat
  rnglists_base : Nat
  line_program_offset : Option Nat
  deriving DecidableEq, Repr

/-- The defaults set before the scan: everything absent, bases and `low_pc`
zero. -/
def ScanState.init : ScanState :=
  ⟨none, none, 0, 0, 0, 0, 0, none⟩

/-- One iteration of the `while let` attribute loop in `DwarfUnit::new`:
dispatch on the attribute name, and for the form-guarded attributes store the
value only when it has the expected form. -/
def scanAttr (s : ScanState) (attr : Attribute) : ScanState :=
  match attr.name with
  | .DW_AT_name => { s with name := some attr.value }
  | .DW_AT_comp_dir => { s with comp_dir := some attr.value }
  | .DW_AT_low_pc =>
    match attr.value with
    | .Addr address => { s with low_pc := address }
    | _ => s
  | .DW_AT_stmt_list =>
    match attr.value with
    | .DebugLineRef offset => { s with line_program_offset := some offset }
    | _ => s
  | .DW_AT_str_offsets_base =>
    match attr.value with
    | .DebugStrOffsetsBase base => { s with str_offsets_base := base }
    | _ => s
  | .DW_AT_addr_base =>
    match attr.value with
    | .DebugAddrBase base => { s with addr_base := base }
    | _ => s
  | .DW_AT_loclists_base =>
    match attr.value with
    | .DebugLocListsBase base => { s with loclists_base := base }
    | _ => s
  | .DW_AT_rnglists_base =>
    match attr.value with
    | .DebugRngListsBase base => { s with rnglists_base := base }
    | _ => s
  | .other _ => s

/-- The full scan of the root entry's attributes, in order. -/
def scanAttrs (attrs : List Attribute) : ScanState :=
  attrs.foldl scanAttr ScanState.init

/-- Assembling the `DwarfUnit` record at the end of `DwarfUnit::new`. -/
def mkUnit (header : UnitHeader) (abbreviations : Abbreviations)
    (s : ScanState) (line_program : Option IncompleteLineProgram) :
    DwarfUnit :=
  ⟨header, abbreviations, s.name, s.comp_dir, s.low_pc, s.str_offsets_base,
    s.addr_base, s.loclists_base, s.rnglists_base, line_program⟩

/-- Embedding of `DwarfUnit::new`: parse the abbreviations, advance to the root entry
(failing with `MissingUnitDie` when the unit has no entries), scan its
attributes once, then build the line program when a statement-list offset was
captured, propagating its errors. -/
def DwarfUnit.new (dwarf : Dwarf) (header : UnitHeader) : Result DwarfUnit :=
  match header.abbreviations dwarf.debug_abbrev with
  | .error e => .error e
  | .ok abbreviations =>
    match header.root with
    | none => .error .MissingUnitDie
    | some root =>
      let s := scanAttrs root.attrs
      match s.line_program_offset with
      | some offset =>
        match dwarf.debug_line.program offset header.encoding.address_size
            s.comp_dir s.name with
        | .error e => .error e
        | .ok lp => .ok (mkUnit header abbreviations s (some lp))
      | none => .ok (mkUnit header abbreviations s none)

/-- Projection of a unit to everything the bootstrap computes (all fields
except the carried-through input header). -/
def DwarfUnit.resolved (u : DwarfUnit) :
    Abbreviations × Option AttributeValue × Option AttributeValue × Nat ×
      Nat × Nat × Nat × Nat × Option IncompleteLineProgram :=
  (u.abbreviations, u.name, u.comp_dir, u.low_pc, u.str_offsets_base,
    u.addr_base, u.loclists_base, u.rnglists_base, u.line_program)

/-- Definition following the claim's words, for refinement comparison with
`Dwarf.locations`: open the location-list iterator resolving index-form
sub-fields inside the list's entries with the unit's location-lists-table
base instead of the address-table base. -/
def Dwarf.locationsUsingLoclistsBase (dwarf : Dwarf) (unit : DwarfUnit)
    (offset : Nat) : Result (List ((Nat × Nat) × Bytes)) :=
  dwarf.location_lists.locations offset unit.encoding unit.low_pc
    dwarf.debug_addr unit.loclists_base

/-- A concrete aggregate for the witnesses: "hello\x00" in the primary string
table, a zero entry in the string-offsets table, a small address table whose
entry at position 0 is 16 and at position 8 is 32, and one raw list at
offset 0 of each list section (an address-index base entry, one offset pair
with payload `[7]`, then the terminator). -/
def sampleDwarf : Dwarf :=
  ⟨⟨fun _ => .ok ⟨0⟩⟩,
    ⟨[16, 0, 0, 0, 0, 0, 0, 0, 32, 0]⟩,
    ⟨fun offset address_size comp_dir name =>
      .ok ⟨offset, address_size, comp_dir, name⟩⟩,
    ⟨[]⟩,
    ⟨[104, 101, 108, 108, 111, 0]⟩,
    ⟨[0, 0, 0, 0]⟩,
    ⟨[]⟩,
    ⟨[], fun offset =>
      if offset = 0 then
        some [(.BaseAddressx 0, []), (.OffsetPair 0 1, [7]), (.EndOfList, [])]
      else none⟩,
    ⟨[], fun offset =>
      if offset = 0 then some [.BaseAddressx 0, .OffsetPair 0 1, .EndOfList]
      else none⟩⟩

/-- A concrete unit with every base left at its default. -/
def sampleUnit : DwarfUnit :=
  ⟨⟨⟨.Dwarf32, 5, 2⟩, 0, none⟩, ⟨0⟩, none, none, 0, 0, 0, 0, 0, none⟩

/-- A concrete unit whose location-lists-table base (8) differs from its
address-table base (0), separating the two candidate bases for index-form
sub-fields inside list entries. -/
def cxUnit : DwarfUnit :=
  ⟨⟨⟨.Dwarf32, 5, 2⟩, 0, none⟩, ⟨0⟩, none, none, 0, 0, 0, 8, 0, none⟩

/-- A concrete header whose root entry declares an address-table base of 4. -/
def c3Header : UnitHeader :=
  ⟨⟨.Dwarf32, 5, 2⟩, 0, some ⟨[⟨.DW_AT_addr_base, .DebugAddrBase 4⟩]⟩⟩

/-- The unit built from `c3Header`. -/
def c3Unit : DwarfUnit :=
  mkUnit c3Header ⟨0⟩ (scanAttrs [⟨.DW_AT_addr_base, .DebugAddrBase 4⟩]) none

/-- A concrete header whose root entry has no attributes at all. -/
def c3bHeader : UnitHeader := ⟨⟨.Dwarf32, 5, 2⟩, 0, some ⟨[]⟩⟩

/-- The unit built from `c3bHeader`. -/
def c3bUnit : DwarfUnit := mkUnit c3bHeader ⟨0⟩ (scanAttrs []) none

/-- Root-entry attributes declaring a statement list at offset 3 and then a
unit name. -/
def c5Attrs : List Attribute :=
  [⟨.DW_AT_stmt_list, .DebugLineRef 3⟩, ⟨.DW_AT_name, .String [65]⟩]

/-- A concrete header whose root entry carries `c5Attrs`. -/
def c5Header : UnitHeader := ⟨⟨.Dwarf32, 5, 2⟩, 0, some ⟨c5Attrs⟩⟩

/-- A concrete header whose root entry carries a `DW_AT_low_pc` attribute in
a non-address form. -/
def c6Header : UnitHeader :=
  ⟨⟨.Dwarf32, 5, 2⟩, 0, some ⟨[⟨.DW_AT_low_pc, .Udata 5⟩]⟩⟩

section ScanLemmas

lemma scanAttr_str_offsets_base (s : ScanState) (a : Attribute)
    (h : ∀ b, ¬(a.name = .DW_AT_str_offsets_base ∧
      a.value = .DebugStrOffsetsBase b)) :
    (scanAttr s a).str_offsets_base = s.str_offsets_base := by
  obtain ⟨n, v⟩ := a
  cases n <;> cases v <;> first
    | rfl
    | exact absurd ⟨rfl, rfl⟩ (h _)

lemma scanAttr_addr_base (s : ScanState) (a : Attribute)
    (h : ∀ b, ¬(a.name = .DW_AT_addr_base ∧ a.value = .DebugAddrBase b)) :
    (scanAttr s a).addr_base = s.addr_base := by
  obtain ⟨n, v⟩ := a
  cases n <;> cases v <;> first
    | rfl
    | exact absurd ⟨rfl, rfl⟩ (h _)

lemma scanAttr_loclists_base (s : ScanState) (a : Attribute)
    (h : ∀ b, ¬(a.name = .DW_AT_loclists_base ∧
      a.value = .DebugLocListsBase b)) :
    (scanAttr s a).loclists_base = s.loclists_base := by
  obtain ⟨n, v⟩ := a
  cases n <;> cases v <;> first
    | rfl
    | exact absurd ⟨rfl, rfl⟩ (h _)

lemma scanAttr_rnglists_base (s : ScanState) (a : Attribute)
    (h : ∀ b, ¬(a.name = .DW_AT_rnglists_base ∧
      a.value = .DebugRngListsBase b)) :
    (scanAttr s a).rnglists_base = s.rnglists_base := by
  obtain ⟨n, v⟩ := a
  cases n <;> cases v <;> first
    | rfl
    | exact absurd ⟨rfl, rfl⟩ (h _)

lemma scanAttr_low_pc (s : ScanState) (a : Attribute)
    (h : ∀ x, ¬(a.name = .DW_AT_low_pc ∧ a.value = .Addr x)) :
    (scanAttr s a).low_pc = s.low_pc := by
  obtain ⟨n, v⟩ := a
  cases n <;> cases v <;> first
    | rfl
    | exact absurd ⟨rfl, rfl⟩ (h _)

lemma scanList_str_offsets_base (l : List Attribute) (s : ScanState)
    (h : ∀ a ∈ l, ∀ b, ¬(a.name = .DW_AT_str_offsets_base ∧
      a.value = .DebugStrOffsetsBase b)) :
    (l.foldl scanAttr s).str_offsets_base = s.str_offsets_base := by
  induction l generalizing s with
  | nil => rfl
  | cons a l ih =>
    rw [List.foldl_cons,
      ih _ (fun a' ha' => h a' (List.mem_cons_of_mem _ ha')),
      scanAttr_str_offsets_base _ _ (h a (List.mem_cons_self _ _))]

lemma scanList_addr_base (l : List Attribute) (s : ScanState)
    (h : ∀ a ∈ l, ∀ b, ¬(a.name = .DW_AT_addr_base ∧
      a.value = .DebugAddrBase b)) :
    (l.foldl scanAttr s).addr_base = s.addr_base := by
  induction l generalizing s with
  | nil => rfl
  | cons a l ih =>
    rw [List.foldl_cons,
      ih _ (fun a' ha' => h a' (List.mem_cons_of_mem _ ha')),
      scanAttr_addr_base _ _ (h a (List.mem_cons_self _ _))]

lemma scanList_loclists_base (l : List Attribute) (s : ScanState)
    (h : ∀ a ∈ l, ∀ b, ¬(a.name = .DW_AT_loclists_base ∧
      a.value = .DebugLocListsBase b)) :
    (l.foldl scanAttr s).loclists_base = s.loclists_base := by
  induction l generalizing s with
  | nil => rfl
  | cons a l ih =>
    rw [List.foldl_cons,
      ih _ (fun a' ha' => h a' (List.mem_cons_of_mem _ ha')),
      scanAttr_loclists_base _ _ (h a (List.mem_cons_self _ _))]

lemma scanList_rnglists_base (l : List Attribute) (s : ScanState)
    (h : ∀ a ∈ l, ∀ b, ¬(a.name = .DW_AT_rnglists_base ∧
      a.value = .DebugRngListsBase b)) :
    (l.foldl scanAttr s).rnglists_base = s.rnglists_base := by
  induction l generalizing s with
  | nil => rfl
  | cons a l ih =>
    rw [List.foldl_cons,
      ih _ (fun a' ha' => h a' (List.mem_cons_of_mem _ ha')),
      scanAttr_rnglists_base _ _ (h a (List.mem_cons_self _ _))]

lemma scanList_low_pc (l : List Attribute) (s : ScanState)
    (h : ∀ a ∈ l, ∀ x, ¬(a.name = .DW_AT_low_pc ∧ a.value = .Addr x)) :
    (l.foldl scanAttr s).low_pc = s.low_pc := by
  induction l generalizing s with
  | nil => rfl
  | cons a l ih =>
    rw [List.foldl_cons,
      ih _ (fun a' ha' => h a' (List.mem_cons_of_mem _ ha')),
      scanAttr_low_pc _ _ (h a (List.mem_cons_self _ _))]

lemma scanAttr_lpo (s : ScanState) (a : Attribute) :
    ((scanAttr s a).line_program_offset = none ↔
      s.line_program_offset = none ∧
        ∀ o, a ≠ ⟨.DW_AT_stmt_list, .DebugLineRef o⟩) := by
  obtain ⟨n, v⟩ := a
  cases n <;> cases v <;> simp [scanAttr]

lemma scanList_lpo (l : List Attribute) (s : ScanState) :
    ((l.foldl scanAttr s).line_program_offset = none ↔
      s.line_program_offset = none ∧
        ∀ o, (⟨.DW_AT_stmt_list, .DebugLineRef o⟩ : Attribute) ∉ l) := by
  induction l generalizing s with
  | nil => simp
  | cons a l ih =>
    rw [List.foldl_cons, ih, scanAttr_lpo]
    constructor
    · rintro ⟨⟨hs, ha⟩, hl⟩
      refine ⟨hs, fun o => ?_⟩
      rw [List.mem_cons]
      rintro (hc | hc)
      · exact ha o hc.symm
      · exact hl o hc
    · rintro ⟨hs, h⟩
      refine ⟨⟨hs, fun o hc => h o ?_⟩, fun o hc => h o ?_⟩
      · rw [hc]; exact List.mem_cons_self _ _
      · exact List.mem_cons_of_mem _ hc

lemma scanAttrs_decl_str_offsets_base (xs ys : List Attribute) (b : Nat)
    (hys : ∀ a ∈ ys, a.name ≠ .DW_AT_str_offsets_base) :
    (scanAttrs
      (xs ++ ⟨.DW_AT_str_offsets_base, .DebugStrOffsetsBase b⟩ :: ys)
      ).str_offsets_base = b := by
  unfold scanAttrs
  rw [List.foldl_append, List.foldl_cons,
    scanList_str_offsets_base ys _ (fun a ha b' hc => hys a ha hc.1)]
  rfl

lemma scanAttrs_decl_addr_base (xs ys : List Attribute) (b : Nat)
    (hys : ∀ a ∈ ys, a.name ≠ .DW_AT_addr_base) :
    (scanAttrs (xs ++ ⟨.DW_AT_addr_base, .DebugAddrBase b⟩ :: ys)).addr_base
      = b := by
  unfold scanAttrs
  rw [List.foldl_append, List.foldl_cons,
    scanList_addr_base ys _ (fun a ha b' hc => hys a ha hc.1)]
  rfl

lemma scanAttrs_decl_loclists_base (xs ys : List Attribute) (b : Nat)
    (hys : ∀ a ∈ ys, a.name ≠ .DW_AT_loclists_base) :
    (scanAttrs
      (xs ++ ⟨.DW_AT_loclists_base, .DebugLocListsBase b⟩ :: ys)
      ).loclists_base = b := by
  unfold scanAttrs
  rw [List.foldl_append, List.foldl_cons,
    scanList_loclists_base ys _ (fun a ha b' hc => hys a ha hc.1)]
  rfl

lemma scanAttrs_decl_rnglists_base (xs ys : List Attribute) (b : Nat)
    (hys : ∀ a ∈ ys, a.name ≠ .DW_AT_rnglists_base) :
    (scanAttrs
      (xs ++ ⟨.DW_AT_rnglists_base, .DebugRngListsBase b⟩ :: ys)
      ).rnglists_base = b := by
  unfold scanAttrs
  rw [List.foldl_append, List.foldl_cons,
    scanList_rnglists_base ys _ (fun a ha b' hc => hys a ha hc.1)]
  rfl

end ScanLemmas

section NewLemmas

lemma new_of_lpo_none (dwarf : Dwarf) (header : UnitHeader)
    (root : RootEntry) (ab : Abbreviations)
    (hab : header.abbreviations dwarf.debug_abbrev = .ok ab)
    (hroot : header.root = some root)
    (hlpo : (scanAttrs root.attrs).line_program_offset = none) :
    DwarfUnit.new dwarf header =
      .ok (mkUnit header ab (scanAttrs root.attrs) none) := by
  simp only [DwarfUnit.new, hab, hroot, hlpo]

lemma new_of_lpo_ok (dwarf : Dwarf) (header : UnitHeader)
    (root : RootEntry) (ab : Abbreviations) (offset : Nat)
    (lp : IncompleteLineProgram)
    (hab : header.abbreviations dwarf.debug_abbrev = .ok ab)
    (hroot : header.root = some root)
    (hlpo : (scanAttrs root.attrs).line_program_offset = some offset)
    (hp : dwarf.debug_line.program offset header.encoding.address_size
      (scanAttrs root.attrs).comp_dir (scanAttrs root.attrs).name = .ok lp) :
    DwarfUnit.new dwarf header =
      .ok (mkUnit header ab (scanAttrs root.attrs) (some lp)) := by
  simp only [DwarfUnit.new, hab, hroot, hlpo, hp]

lemma new_of_lpo_error (dwarf : Dwarf) (header : UnitHeader)
    (root : RootEntry) (ab : Abbreviations) (offset : Nat) (e : Error)
    (hab : header.abbreviations dwarf.debug_abbrev = .ok ab)
    (hroot : header.root = some root)
    (hlpo : (scanAttrs root.attrs).line_program_offset = some offset)
    (hp : dwarf.debug_line.program offset header.encoding.address_size
      (scanAttrs root.attrs).comp_dir (scanAttrs root.attrs).name =
        .error e) :
    DwarfUnit.new dwarf header = .error e := by
  simp only [DwarfUnit.new, hab, hroot, hlpo, hp]

lemma new_ok_shape (dwarf : Dwarf) (header : UnitHeader) (root : RootEntry)
    (u : DwarfUnit) (hroot : header.root = some root)
    (hnew : DwarfUnit.new dwarf header = .ok u) :
    ∃ ab lp, u = mkUnit header ab (scanAttrs root.attrs) lp ∧
      (lp = none ↔ (scanAttrs root.attrs).line_program_offset = none) := by
  cases hab : header.abbreviations dwarf.debug_abbrev with
  | error e =>
    simp only [DwarfUnit.new, hab] at hnew
    exact Except.noConfusion hnew
  | ok ab =>
    cases hlpo : (scanAttrs root.attrs).line_program_offset with
    | none =>
      rw [new_of_lpo_none dwarf header root ab hab hroot hlpo,
        Except.ok.injEq] at hnew
      exact ⟨ab, none, hnew.symm, by simp⟩
    | some offset =>
      cases hp : dwarf.debug_line.program offset header.encoding.address_size
          (scanAttrs root.attrs).comp_dir (scanAttrs root.attrs).name with
      | error e =>
        rw [new_of_lpo_error dwarf header root ab offset e hab hroot hlpo
          hp] at hnew
        exact absurd hnew (by simp)
      | ok lp =>
        rw [new_of_lpo_ok dwarf header root ab offset lp hab hroot hlpo hp,
          Except.ok.injEq] at hnew
        exact ⟨ab, some lp, hnew.symm, by simp⟩

end NewLemmas

section MirrorLemmas

lemma decodeLoc_map_fst (da : DebugAddr) (asz ab : Nat)
    (es : List (RawListEntry × Bytes)) (base : Nat) :
    (decodeLocEntries da asz ab es base).map (List.map Prod.fst) =
      decodeRngEntries da asz ab (es.map Prod.fst) base := by
  induction es generalizing base with
  | nil => rfl
  | cons e rest ih =>
    obtain ⟨re, d⟩ := e
    cases re with
    | OffsetPair lo hi =>
      simp only [List.map_cons, decodeLocEntries, decodeRngEntries, ← ih]
      cases decodeLocEntries da asz ab rest base <;> simp [Except.map]
    | StartEnd lo hi =>
      simp only [List.map_cons, decodeLocEntries, decodeRngEntries, ← ih]
      cases decodeLocEntries da asz ab rest base <;> simp [Except.map]
    | BaseAddress addr =>
      simp only [List.map_cons, decodeLocEntries, decodeRngEntries]
      exact ih addr
    | BaseAddressx index =>
      simp only [List.map_cons, decodeLocEntries, decodeRngEntries]
      cases da.get_address asz ab index with
      | error e => rfl
      | ok addr => exact ih addr
    | StartxEndx i j =>
      simp only [List.map_cons, decodeLocEntries, decodeRngEntries, ← ih]
      cases da.get_address asz ab i <;> cases da.get_address asz ab j <;>
        cases decodeLocEntries da asz ab rest base <;> simp [Except.map]
    | EndOfList => rfl

end MirrorLemmas

section SwapLemmas

lemma scanAttr_comm (s : ScanState) (a b : Attribute)
    (hne : a.name ≠ b.name) :
    scanAttr (scanAttr s a) b = scanAttr (scanAttr s b) a := by
  obtain ⟨na, va⟩ := a
  obtain ⟨nb, vb⟩ := b
  simp only [ne_eq] at hne
  cases na <;> cases nb <;>
    first
      | exact absurd rfl hne
      | rfl
      | (cases va <;> rfl)
      | (cases vb <;> rfl)
      | (cases va <;> cases vb <;> rfl)

lemma scanAttrs_swap (xs ys : List Attribute) (a b : Attribute)
    (hne : a.name ≠ b.name) :
    scanAttrs (xs ++ a :: b :: ys) = scanAttrs (xs ++ b :: a :: ys) := by
  unfold scanAttrs
  rw [List.foldl_append, List.foldl_append, List.foldl_cons, List.foldl_cons,
    List.foldl_cons, List.foldl_cons, scanAttr_comm _ _ _ hne]

end SwapLemmas

/-- C1 (counterexample): on a concrete aggregate whose address table differs
at the unit's address-table base (0) and location-lists-table base (8), the
location-list iterator opened by `Dwarf.locations` resolves the address-index
base entry through the address-table base, not through the location-lists
base the claim names: the two resolutions disagree. -/
theorem C1_loclists_base_counterexample :
    sampleDwarf.locations cxUnit 0 = .ok [((16, 17), [7])] ∧
      Dwarf.locationsUsingLoclistsBase sampleDwarf cxUnit 0 =
        .ok [((32, 33), [7])] ∧
      sampleDwarf.locations cxUnit 0 ≠
        Dwarf.locationsUsingLoclistsBase sampleDwarf cxUnit 0 := by
  refine ⟨?_, ?_, ?_⟩ <;> decide

/-- C1 (amended): for every unit context and location-lists-section offset,
the opened location-list iterator resolves index-form sub-fields inside the
list's entries using the unit's address-table base (`addr_base`), with
base-tracking and terminator rules otherwise identical to range lists: on
identical raw entry streams its address pairs coincide with the range-list
iterator's. -/
theorem C1_locations_mirror_ranges_via_addr_base (dwarf : Dwarf)
    (unit : DwarfUnit) (loff roff : Nat)
    (entries : List (RawListEntry × Bytes))
    (hl : dwarf.location_lists.lists loff = some entries)
    (hr : dwarf.range_lists.lists roff = some (entries.map Prod.fst)) :
    (dwarf.locations unit loff).map (List.map Prod.fst) =
      dwarf.ranges unit roff := by
  simp only [Dwarf.locations, Dwarf.ranges, LocationLists.locations,
    RangeLists.ranges, hl, hr]
  exact decodeLoc_map_fst dwarf.debug_addr unit.encoding.address_size
    unit.addr_base entries unit.low_pc

/-- Witness for C1 (amended) at the concrete aggregate and unit of the
counterexample. -/
theorem C1_locations_mirror_ranges_via_addr_base_witness :
    (sampleDwarf.locations cxUnit 0).map (List.map Prod.fst) =
      sampleDwarf.ranges cxUnit 0 :=
  C1_locations_mirror_ranges_via_addr_base sampleDwarf cxUnit 0 0
    [(.BaseAddressx 0, []), (.OffsetPair 0 1, [7]), (.EndOfList, [])]
    (by decide) (by decide)

/-- C2: when the string-offsets table, read with the unit's format at the
unit's string-offsets base, stores offset V at index i, resolving a
string-offsets-index attribute with index i returns exactly the same bytes
as resolving a direct primary-string-table offset attribute with offset V. -/
theorem C2_strx_equals_direct_offset (dwarf : Dwarf) (unit : DwarfUnit)
    (i V : Nat)
    (h : dwarf.debug_str_offsets.get_str_offset unit.header.encoding.format
      unit.str_offsets_base i = .ok V) :
    dwarf.attr_string unit (.DebugStrOffsetsIndex i) =
      dwarf.attr_string unit (.DebugStrRef V) := by
  simp only [Dwarf.attr_string, h]

/-- Witness for C2: in the concrete aggregate the table stores offset 0 at
index 0, and both resolutions return the bytes of "hello". -/
theorem C2_strx_equals_direct_offset_witness :
    (sampleDwarf.debug_str_offsets.get_str_offset
        sampleUnit.header.encoding.format sampleUnit.str_offsets_base 0 =
      .ok 0) ∧
      sampleDwarf.attr_string sampleUnit (.DebugStrOffsetsIndex 0) =
        sampleDwarf.attr_string sampleUnit (.DebugStrRef 0) ∧
      sampleDwarf.attr_string sampleUnit (.DebugStrRef 0) =
        .ok [104, 101, 108, 108, 111] :=
  ⟨by decide,
    C2_strx_equals_direct_offset sampleDwarf sampleUnit 0 0 (by decide),
    by decide⟩

/-- C4: a unit header whose entry tree contains zero entries always makes
construction fail with `MissingUnitDie`; it never returns a context. -/
theorem C4_empty_unit_missing_die (dwarf : Dwarf) (header : UnitHeader)
    (ab : Abbreviations)
    (hab : header.abbreviations dwarf.debug_abbrev = .ok ab)
    (hroot : header.root = none) :
    DwarfUnit.new dwarf header = .error .MissingUnitDie := by
  simp only [DwarfUnit.new, hab, hroot]

/-- Witness for C4 at a concrete empty-tree header. -/
theorem C4_empty_unit_missing_die_witness :
    DwarfUnit.new sampleDwarf ⟨⟨.Dwarf32, 5, 2⟩, 0, none⟩ =
      .error .MissingUnitDie :=
  C4_empty_unit_missing_die sampleDwarf ⟨⟨.Dwarf32, 5, 2⟩, 0, none⟩ ⟨0⟩
    rfl rfl

/-- C7: an attribute value that is neither a direct section-relative
range-list/location-list reference nor the corresponding index form resolves
to the not-applicable result (`Ok None`) under both the range-list-offset and
the location-list-offset resolvers, never to an error. -/
theorem C7_unrelated_attr_not_applicable (dwarf : Dwarf) (unit : DwarfUnit)
    (attr : AttributeValue)
    (h1 : ∀ o, attr ≠ .RangeListsRef o)
    (h2 : ∀ i, attr ≠ .DebugRngListsIndex i)
    (h3 : ∀ o, attr ≠ .LocationListsRef o)
    (h4 : ∀ i, attr ≠ .DebugLocListsIndex i) :
    dwarf.attr_ranges_offset unit attr = .ok none ∧
      dwarf.attr_locations_offset unit attr = .ok none := by
  constructor <;> cases attr <;> first
    | rfl
    | exact absurd rfl (h1 _)
    | exact absurd rfl (h2 _)
    | exact absurd rfl (h3 _)
    | exact absurd rfl (h4 _)

/-- Witness for C7 at an inline-string attribute value. -/
theorem C7_unrelated_attr_not_applicable_witness :
    sampleDwarf.attr_ranges_offset sampleUnit (.String [104]) = .ok none ∧
      sampleDwarf.attr_locations_offset sampleUnit (.String [104]) =
        .ok none :=
  C7_unrelated_attr_not_applicable sampleDwarf sampleUnit (.String [104])
    (fun _ h => AttributeValue.noConfusion h)
    (fun _ h => AttributeValue.noConfusion h)
    (fun _ h => AttributeValue.noConfusion h)
    (fun _ h => AttributeValue.noConfusion h)

/-- C8: string resolution of an inline-string attribute value returns the
value's bytes unchanged. -/
theorem C8_inline_string_identity (dwarf : Dwarf) (unit : DwarfUnit)
    (s : Bytes) : dwarf.attr_string unit (.String s) = .ok s := rfl

/-- C9: string resolution of an attribute value that is none of the five
string-compatible forms returns the `ExpectedStringAttributeValue` error. -/
theorem C9_non_string_form_error (dwarf : Dwarf) (unit : DwarfUnit)
    (attr : AttributeValue)
    (h1 : ∀ s, attr ≠ .String s)
    (h2 : ∀ o, attr ≠ .DebugStrRef o)
    (h3 : ∀ o, attr ≠ .DebugStrRefSup o)
    (h4 : ∀ o, attr ≠ .DebugLineStrRef o)
    (h5 : ∀ i, attr ≠ .DebugStrOffsetsIndex i) :
    dwarf.attr_string unit attr = .error .ExpectedStringAttributeValue := by
  cases attr <;> first
    | rfl
    | exact absurd rfl (h1 _)
    | exact absurd rfl (h2 _)
    | exact absurd rfl (h3 _)
    | exact absurd rfl (h4 _)
    | exact absurd rfl (h5 _)

/-- Witness for C9 at a constant-data attribute value. -/
theorem C9_non_string_form_error_witness :
    sampleDwarf.attr_string sampleUnit (.Udata 7) =
      .error .ExpectedStringAttributeValue :=
  C9_non_string_form_error sampleDwarf sampleUnit (.Udata 7)
    (fun _ h => AttributeValue.noConfusion h)
    (fun _ h => AttributeValue.noConfusion h)
    (fun _ h => AttributeValue.noConfusion h)
    (fun _ h => AttributeValue.noConfusion h)
    (fun _ h => AttributeValue.noConfusion h)

/-- C3: a successfully constructed unit context has all four bases and
`low_pc` equal to 0 when the root entry carries none of those attributes, and
each base equals the declared value when the root entry declares that base
attribute in the correct base form (the last such declaration governing). -/
theorem C3_base_defaults_and_declared (dwarf : Dwarf) (header : UnitHeader)
    (root : RootEntry) (u : DwarfUnit) (hroot : header.root = some root)
    (hnew : DwarfUnit.new dwarf header = .ok u) :
    ((∀ a ∈ root.attrs, a.name ≠ .DW_AT_str_offsets_base ∧
        a.name ≠ .DW_AT_addr_base ∧ a.name ≠ .DW_AT_loclists_base ∧
        a.name ≠ .DW_AT_rnglists_base ∧ a.name ≠ .DW_AT_low_pc) →
      u.str_offsets_base = 0 ∧ u.addr_base = 0 ∧ u.loclists_base = 0 ∧
        u.rnglists_base = 0 ∧ u.low_pc = 0) ∧
    (∀ xs ys b,
      root.attrs = xs ++ ⟨.DW_AT_str_offsets_base,
          .DebugStrOffsetsBase b⟩ :: ys →
      (∀ a ∈ ys, a.name ≠ .DW_AT_str_offsets_base) →
      u.str_offsets_base = b) ∧
    (∀ xs ys b,
      root.attrs = xs ++ ⟨.DW_AT_addr_base, .DebugAddrBase b⟩ :: ys →
      (∀ a ∈ ys, a.name ≠ .DW_AT_addr_base) → u.addr_base = b) ∧
    (∀ xs ys b,
      root.attrs = xs ++ ⟨.DW_AT_loclists_base, .DebugLocListsBase b⟩ :: ys →
      (∀ a ∈ ys, a.name ≠ .DW_AT_loclists_base) → u.loclists_base = b) ∧
    (∀ xs ys b,
      root.attrs = xs ++ ⟨.DW_AT_rnglists_base, .DebugRngListsBase b⟩ :: ys →
      (∀ a ∈ ys, a.name ≠ .DW_AT_rnglists_base) → u.rnglists_base = b) := by
  obtain ⟨ab, lp, rfl, -⟩ := new_ok_shape dwarf header root u hroot hnew
  refine ⟨fun h => ⟨?_, ?_, ?_, ?_, ?_⟩, ?_, ?_, ?_, ?_⟩
  · exact scanList_str_offsets_base root.attrs ScanState.init
      (fun a ha b hc => (h a ha).1 hc.1)
  · exact scanList_addr_base root.attrs ScanState.init
      (fun a ha b hc => (h a ha).2.1 hc.1)
  · exact scanList_loclists_base root.attrs ScanState.init
      (fun a ha b hc => (h a ha).2.2.1 hc.1)
  · exact scanList_rnglists_base root.attrs ScanState.init
      (fun a ha b hc => (h a ha).2.2.2.1 hc.1)
  · exact scanList_low_pc root.attrs ScanState.init
      (fun a ha x hc => (h a ha).2.2.2.2 hc.1)
  · intro xs ys b heq hys
    show (scanAttrs root.attrs).str_offsets_base = b
    rw [heq]
    exact scanAttrs_decl_str_offsets_base xs ys b hys
  · intro xs ys b heq hys
    show (scanAttrs root.attrs).addr_base = b
    rw [heq]
    exact scanAttrs_decl_addr_base xs ys b hys
  · intro xs ys b heq hys
    show (scanAttrs root.attrs).loclists_base = b
    rw [heq]
    exact scanAttrs_decl_loclists_base xs ys b hys
  · intro xs ys b heq hys
    show (scanAttrs root.attrs).rnglists_base = b
    rw [heq]
    exact scanAttrs_decl_rnglists_base xs ys b hys

/-- Witness for C3: a root entry declaring an address base of 4 gives a unit
with that base, and a root entry with no attributes gives all-zero bases and
`low_pc`. -/
theorem C3_base_defaults_and_declared_witness :
    (DwarfUnit.new sampleDwarf c3Header = .ok c3Unit ∧ c3Unit.addr_base = 4) ∧
      (DwarfUnit.new sampleDwarf c3bHeader = .ok c3bUnit ∧
        c3bUnit.str_offsets_base = 0 ∧ c3bUnit.addr_base = 0 ∧
        c3bUnit.loclists_base = 0 ∧ c3bUnit.rnglists_base = 0 ∧
        c3bUnit.low_pc = 0) :=
  ⟨⟨rfl,
    (C3_base_defaults_and_declared sampleDwarf c3Header
      ⟨[⟨.DW_AT_addr_base, .DebugAddrBase 4⟩]⟩ c3Unit rfl rfl).2.2.1
      [] [] 4 rfl (by simp)⟩,
    ⟨rfl,
    (C3_base_defaults_and_declared sampleDwarf c3bHeader ⟨[]⟩ c3bUnit rfl
      rfl).1 (by simp)⟩⟩

/-- C5: construction builds a line program exactly when the root entry
declares a statement-list attribute in line-section-reference form; when one
is captured, the line-program constructor is invoked with the line section,
the header's address size and the captured comp_dir and name, its error is
propagated, and its success is stored in the context. -/
theorem C5_line_program_construction (dwarf : Dwarf) (header : UnitHeader)
    (root : RootEntry) (ab : Abbreviations)
    (hab : header.abbreviations dwarf.debug_abbrev = .ok ab)
    (hroot : header.root = some root) :
    ((scanAttrs root.attrs).line_program_offset = none →
      DwarfUnit.new dwarf header =
        .ok (mkUnit header ab (scanAttrs root.attrs) none)) ∧
    (∀ offset, (scanAttrs root.attrs).line_program_offset = some offset →
      (∀ e, dwarf.debug_line.program offset header.encoding.address_size
          (scanAttrs root.attrs).comp_dir (scanAttrs root.attrs).name =
            .error e →
        DwarfUnit.new dwarf header = .error e) ∧
      (∀ lp, dwarf.debug_line.program offset header.encoding.address_size
          (scanAttrs root.attrs).comp_dir (scanAttrs root.attrs).name =
            .ok lp →
        DwarfUnit.new dwarf header =
          .ok (mkUnit header ab (scanAttrs root.attrs) (some lp)))) ∧
    (∀ u, DwarfUnit.new dwarf header = .ok u →
      (u.line_program ≠ none ↔
        ∃ o, (⟨.DW_AT_stmt_list, .DebugLineRef o⟩ : Attribute) ∈
          root.attrs)) := by
  refine ⟨new_of_lpo_none dwarf header root ab hab hroot,
    fun offset hlpo =>
      ⟨fun e hp => new_of_lpo_error dwarf header root ab offset e hab hroot
          hlpo hp,
        fun lp hp => new_of_lpo_ok dwarf header root ab offset lp hab hroot
          hlpo hp⟩,
    fun u hnew => ?_⟩
  obtain ⟨ab', lp, rfl, hiff⟩ := new_ok_shape dwarf header root u hroot hnew
  show lp ≠ none ↔ _
  constructor
  · intro hlp
    by_contra hno
    push_neg at hno
    exact hlp (hiff.mpr
      ((scanList_lpo root.attrs ScanState.init).mpr ⟨rfl, hno⟩))
  · rintro ⟨o, ho⟩ hlp
    exact ((scanList_lpo root.attrs ScanState.init).mp (hiff.mp hlp)).2 o ho

/-- Witness for C5: with a statement list declared at offset 3 and a name
attribute, construction stores the line program seeded with offset 3, the
header's address size 2, no comp_dir and the captured name. -/
theorem C5_line_program_construction_witness :
    DwarfUnit.new sampleDwarf c5Header =
      .ok (mkUnit c5Header ⟨0⟩ (scanAttrs c5Attrs)
        (some ⟨3, 2, none, some (.String [65])⟩)) :=
  ((C5_line_program_construction sampleDwarf c5Header ⟨c5Attrs⟩ ⟨0⟩ rfl
      rfl).2.1 3 rfl).2 ⟨3, 2, none, some (.String [65])⟩ rfl

/-- C6: a root entry carrying a `DW_AT_low_pc` attribute whose value is not
an address-form value does not make construction fail, and the constructed
context keeps `low_pc` at its default of 0. -/
theorem C6_low_pc_wrong_form_ignored (dwarf : Dwarf) (header : UnitHeader)
    (root : RootEntry) (ab : Abbreviations)
    (hab : header.abbreviations dwarf.debug_abbrev = .ok ab)
    (hroot : header.root = some root)
    (_hcarry : ∃ a ∈ root.attrs, a.name = .DW_AT_low_pc)
    (hforms : ∀ a ∈ root.attrs, a.name = .DW_AT_low_pc →
      ∀ x, a.value ≠ .Addr x)
    (hline : ∀ offset,
      (scanAttrs root.attrs).line_program_offset = some offset →
      ∃ lp, dwarf.debug_line.program offset header.encoding.address_size
        (scanAttrs root.attrs).comp_dir (scanAttrs root.attrs).name =
          .ok lp) :
    ∃ u, DwarfUnit.new dwarf header = .ok u ∧ u.low_pc = 0 := by
  have hzero : (scanAttrs root.attrs).low_pc = 0 :=
    scanList_low_pc root.attrs ScanState.init
      (fun a ha x hc => hforms a ha hc.1 x hc.2)
  cases hlpo : (scanAttrs root.attrs).line_program_offset with
  | none =>
    exact ⟨mkUnit header ab (scanAttrs root.attrs) none,
      new_of_lpo_none dwarf header root ab hab hroot hlpo, hzero⟩
  | some offset =>
    obtain ⟨lp, hp⟩ := hline offset hlpo
    exact ⟨mkUnit header ab (scanAttrs root.attrs) (some lp),
      new_of_lpo_ok dwarf header root ab offset lp hab hroot hlpo hp, hzero⟩

/-- Witness for C6 at a root entry whose only attribute is a constant-form
`DW_AT_low_pc`. -/
theorem C6_low_pc_wrong_form_ignored_witness :
    ∃ u, DwarfUnit.new sampleDwarf c6Header = .ok u ∧ u.low_pc = 0 :=
  C6_low_pc_wrong_form_ignored sampleDwarf c6Header
    ⟨[⟨.DW_AT_low_pc, .Udata 5⟩]⟩ ⟨0⟩ rfl rfl
    ⟨⟨.DW_AT_low_pc, .Udata 5⟩, by simp, rfl⟩
    (by
      intro a ha hn x
      simp only [List.mem_singleton] at ha
      rw [ha]
      simp)
    (by intro offset h; exact Option.noConfusion h)

/-- C10: the line program is built only after the whole root-entry scan, so
construction's resolved output does not depend on the relative order of two
differently-named root attributes — in particular name/comp_dir may appear
before or after the statement-list attribute. -/
theorem C10_attribute_order_independence (dwarf : Dwarf)
    (encoding : Encoding) (abbrev_offset : Nat) (xs ys : List Attribute)
    (a b : Attribute) (hne : a.name ≠ b.name) :
    (DwarfUnit.new dwarf
        ⟨encoding, abbrev_offset, some ⟨xs ++ a :: b :: ys⟩⟩).map
      DwarfUnit.resolved =
    (DwarfUnit.new dwarf
        ⟨encoding, abbrev_offset, some ⟨xs ++ b :: a :: ys⟩⟩).map
      DwarfUnit.resolved := by
  have hswap := scanAttrs_swap xs ys a b hne
  cases hab : dwarf.debug_abbrev.tables abbrev_offset with
  | error e => simp [DwarfUnit.new, UnitHeader.abbreviations, hab]
  | ok ab =>
    have hab1 : (⟨encoding, abbrev_offset,
        some ⟨xs ++ a :: b :: ys⟩⟩ : UnitHeader).abbreviations
          dwarf.debug_abbrev = .ok ab := hab
    have hab2 : (⟨encoding, abbrev_offset,
        some ⟨xs ++ b :: a :: ys⟩⟩ : UnitHeader).abbreviations
          dwarf.debug_abbrev = .ok ab := hab
    cases hlpo : (scanAttrs (xs ++ b :: a :: ys)).line_program_offset with
    | none =>
      rw [new_of_lpo_none dwarf _ ⟨xs ++ a :: b :: ys⟩ ab hab1 rfl
          (by rw [hswap]; exact hlpo),
        new_of_lpo_none dwarf _ ⟨xs ++ b :: a :: ys⟩ ab hab2 rfl hlpo]
      simp [mkUnit, DwarfUnit.resolved, Except.map, hswap]
    | some offset =>
      cases hp : dwarf.debug_line.program offset encoding.address_size
          (scanAttrs (xs ++ b :: a :: ys)).comp_dir
          (scanAttrs (xs ++ b :: a :: ys)).name with
      | error e =>
        rw [new_of_lpo_error dwarf _ ⟨xs ++ a :: b :: ys⟩ ab offset e hab1
            rfl (by rw [hswap]; exact hlpo) (by rw [hswap]; exact hp),
          new_of_lpo_error dwarf _ ⟨xs ++ b :: a :: ys⟩ ab offset e hab2
            rfl hlpo hp]
      | ok lp =>
        rw [new_of_lpo_ok dwarf _ ⟨xs ++ a :: b :: ys⟩ ab offset lp hab1
            rfl (by rw [hswap]; exact hlpo) (by rw [hswap]; exact hp),
          new_of_lpo_ok dwarf _ ⟨xs ++ b :: a :: ys⟩ ab offset lp hab2
            rfl hlpo hp]
        simp [mkUnit, DwarfUnit.resolved, Except.map, hswap]

/-- Witness for C10: swapping a statement-list attribute and a name
attribute leaves the resolved construction output unchanged. -/
theorem C10_attribute_order_independence_witness :
    (DwarfUnit.new sampleDwarf ⟨⟨.Dwarf32, 5, 2⟩, 0,
        some ⟨[⟨.DW_AT_stmt_list, .DebugLineRef 3⟩,
          ⟨.DW_AT_name, .String [65]⟩]⟩⟩).map DwarfUnit.resolved =
    (DwarfUnit.new sampleDwarf ⟨⟨.Dwarf32, 5, 2⟩, 0,
        some ⟨[⟨.DW_AT_name, .String [65]⟩,
          ⟨.DW_AT_stmt_list, .DebugLineRef 3⟩]⟩⟩).map DwarfUnit.resolved :=
  C10_attribute_order_independence sampleDwarf ⟨.Dwarf32, 5, 2⟩ 0 [] []
    ⟨.DW_AT_stmt_list, .DebugLineRef 3⟩ ⟨.DW_AT_name, .String [65]⟩
    (by decide)

end Gimli
